import Mathlib

/-!
Shallow embedding of the battleship match engine
(`src/contracts/battleship/src/lib.rs`).

Addresses are modelled as natural numbers (only equality is used by the
engine).  A `BytesN<32>` board commitment is modelled by its value as a
natural number; `0` is the all-zero "uncommitted" sentinel the code compares
against.  Every `assert!`/`panic!` in a contract function is modelled as an
`Except.error` carrying the corresponding fault, and a fault aborts the
operation with no write, matching the transactional substrate.
-/

namespace Battleship

abbrev Address := Nat

abbrev Digest := Nat

/-- The per-match record, field for field the Rust `Game` struct. -/
structure Game where
  player1 : Address
  player2 : Address
  board_hash1 : Digest
  board_hash2 : Digest
  boards_committed : Nat
  turn : Nat
  p1_hits : Nat
  p2_hits : Nat
  status : Nat
  session_id : Nat
  awaiting_report : Bool
  last_shot_x : Nat
  last_shot_y : Nat
  p1_turns_taken : Nat
  p2_turns_taken : Nat
  p1_sonar_used : Bool
  p2_sonar_used : Bool
  awaiting_sonar : Bool
  sonar_center_x : Nat
  sonar_center_y : Nat
  last_sonar_count : Nat
deriving DecidableEq, Repr

/-- The distinguishable faults (assert/panic/expect messages) of the engine. -/
inductive Err where
  | alreadyInit
  | gameNotFound
  | notInSetup
  | p2AlreadyJoined
  | cannotJoinOwn
  | boardAlreadyCommitted
  | notAPlayerInThisGame
  | gameNotInProgress
  | waitingForHitReport
  | waitingForSonarReport
  | shotOutOfBounds
  | sonarOutOfBounds
  | notYourTurn
  | noShotToReport
  | noSonarToReport
  | wrongPlayerReporting
  | invalidSonarCount
  | sonarAlreadyUsed
  | sonarNotAvailable
  | notEnoughHits
  | notAPlayer
deriving DecidableEq, Repr

/-- `true` iff the computation committed (did not abort). -/
def okB {α : Type} : Except Err α → Bool
  | .ok _ => true
  | .error _ => false

/-- Record-level body of `join_game` (after the record has been loaded). -/
def join_game (game : Game) (player2 : Address) : Except Err Game :=
  if game.status ≠ 0 then .error .notInSetup
  else if game.player2 ≠ game.player1 then .error .p2AlreadyJoined
  else if player2 = game.player1 then .error .cannotJoinOwn
  else .ok { game with player2 := player2 }

/-- Tail of `commit_board`: increment the commit count and, when it reaches
two, move the match to in-progress. -/
def commit_after (g : Game) : Game :=
  let g2 := { g with boards_committed := g.boards_committed + 1 }
  if g2.boards_committed = 2 then { g2 with status := 1 } else g2

/-- Record-level body of `commit_board`. -/
def commit_board (game : Game) (player : Address) (board_hash : Digest) :
    Except Err Game :=
  if game.status ≠ 0 then .error .notInSetup
  else if player = game.player1 then
    if game.board_hash1 ≠ 0 then .error .boardAlreadyCommitted
    else .ok (commit_after { game with board_hash1 := board_hash })
  else if game.player2 ≠ game.player1 ∧ player = game.player2 then
    if game.board_hash2 ≠ 0 then .error .boardAlreadyCommitted
    else .ok (commit_after { game with board_hash2 := board_hash })
  else .error .notAPlayerInThisGame

/-- Record-level body of `take_shot`. -/
def take_shot (game : Game) (player : Address) (x y : Nat) : Except Err Game :=
  if game.status ≠ 1 then .error .gameNotInProgress
  else if game.awaiting_report then .error .waitingForHitReport
  else if ¬(x < 10 ∧ y < 10) then .error .shotOutOfBounds
  else if game.turn = 1 then
    if player ≠ game.player1 then .error .notYourTurn
    else .ok { game with last_shot_x := x, last_shot_y := y,
                         awaiting_report := true,
                         p1_turns_taken := game.p1_turns_taken + 1 }
  else
    if player ≠ game.player2 then .error .notYourTurn
    else .ok { game with last_shot_x := x, last_shot_y := y,
                         awaiting_report := true,
                         p2_turns_taken := game.p2_turns_taken + 1 }

/-- Record-level body of `report_result`. -/
def report_result (game : Game) (player : Address) (hit : Bool) :
    Except Err Game :=
  if game.status ≠ 1 then .error .gameNotInProgress
  else if ¬game.awaiting_report then .error .noShotToReport
  else if game.turn = 1 then
    if player ≠ game.player2 then .error .wrongPlayerReporting
    else .ok { game with
                 p1_hits := if hit then game.p1_hits + 1 else game.p1_hits,
                 awaiting_report := false, turn := 2 }
  else
    if player ≠ game.player1 then .error .wrongPlayerReporting
    else .ok { game with
                 p2_hits := if hit then game.p2_hits + 1 else game.p2_hits,
                 awaiting_report := false, turn := 1 }

/-- Record-level body of `claim_victory`; the boolean is `player1_won`,
forwarded to the hub. -/
def claim_victory (game : Game) (player : Address) :
    Except Err (Game × Bool) :=
  if game.status ≠ 1 then .error .gameNotInProgress
  else if player = game.player1 then
    if game.p1_hits < 17 then .error .notEnoughHits
    else .ok ({ game with status := 2 }, true)
  else if player = game.player2 then
    if game.p2_hits < 17 then .error .notEnoughHits
    else .ok ({ game with status := 2 }, false)
  else .error .notAPlayer

/-- Body of the read-only `sonar_available`. -/
def sonar_available (game : Game) (player : Address) : Bool :=
  if game.status ≠ 1 ∨ game.awaiting_report = true ∨ game.awaiting_sonar = true
  then false
  else if player = game.player1 then
    if game.turn ≠ 1 ∨ game.p1_sonar_used = true then false
    else decide (3 ≤ game.p1_turns_taken)
  else if player = game.player2 then
    if game.turn ≠ 2 ∨ game.p2_sonar_used = true then false
    else decide (3 ≤ game.p2_turns_taken)
  else false

/-- Record-level body of `use_sonar`. -/
def use_sonar (game : Game) (player : Address) (center_x center_y : Nat) :
    Except Err Game :=
  if game.status ≠ 1 then .error .gameNotInProgress
  else if game.awaiting_report then .error .waitingForHitReport
  else if game.awaiting_sonar then .error .waitingForSonarReport
  else if ¬(center_x < 10 ∧ center_y < 10) then .error .sonarOutOfBounds
  else if game.turn = 1 then
    if player ≠ game.player1 then .error .notYourTurn
    else if game.p1_sonar_used then .error .sonarAlreadyUsed
    else if game.p1_turns_taken < 3 then .error .sonarNotAvailable
    else .ok { game with p1_sonar_used := true,
                         p1_turns_taken := game.p1_turns_taken + 1,
                         sonar_center_x := center_x,
                         sonar_center_y := center_y,
                         awaiting_sonar := true }
  else
    if player ≠ game.player2 then .error .notYourTurn
    else if game.p2_sonar_used then .error .sonarAlreadyUsed
    else if game.p2_turns_taken < 3 then .error .sonarNotAvailable
    else .ok { game with p2_sonar_used := true,
                         p2_turns_taken := game.p2_turns_taken + 1,
                         sonar_center_x := center_x,
                         sonar_center_y := center_y,
                         awaiting_sonar := true }

/-- Record-level body of `report_sonar`. -/
def report_sonar (game : Game) (player : Address) (count : Nat) :
    Except Err Game :=
  if game.status ≠ 1 then .error .gameNotInProgress
  else if ¬game.awaiting_sonar then .error .noSonarToReport
  else if ¬(count ≤ 9) then .error .invalidSonarCount
  else if game.turn = 1 then
    if player ≠ game.player2 then .error .wrongPlayerReporting
    else .ok { game with last_sonar_count := count,
                         awaiting_sonar := false, turn := 2 }
  else
    if player ≠ game.player1 then .error .wrongPlayerReporting
    else .ok { game with last_sonar_count := count,
                         awaiting_sonar := false, turn := 1 }

/-- An outbound cross-contract notification to the configured hub.  The
engine's own contract address and the two reserved zero stake arguments of
`start_game` are substrate constants and are elided. -/
inductive HubEvent where
  | start_game (session_id : Nat) (player1 player2 : Address)
  | end_game (session_id : Nat) (player1_won : Bool)
deriving DecidableEq, Repr

/-- The contract's whole storage: the `Hub` and `GameCount` instance slots,
the persistent `Game(id)` map, plus the list of hub calls issued so far. -/
structure ContractState where
  hub : Option Address
  gameCount : Option Nat
  games : Nat → Option Game
  events : List HubEvent

/-- Storage of a freshly deployed contract: nothing set. -/
def initState : ContractState :=
  { hub := none, gameCount := none, games := fun _ => none, events := [] }

/-- Body of `game_count`: the `GameCount` slot, defaulting to 0. -/
def game_count (s : ContractState) : Nat := s.gameCount.getD 0

/-- The record fabricated by `new_game`. -/
def freshGame (player1 : Address) (count : Nat) : Game :=
  { player1 := player1, player2 := player1, board_hash1 := 0, board_hash2 := 0,
    boards_committed := 0, turn := 1, p1_hits := 0, p2_hits := 0, status := 0,
    session_id := count, awaiting_report := false, last_shot_x := 0,
    last_shot_y := 0, p1_turns_taken := 0, p2_turns_taken := 0,
    p1_sonar_used := false, p2_sonar_used := false, awaiting_sonar := false,
    sonar_center_x := 0, sonar_center_y := 0, last_sonar_count := 0 }

/-- Write the record stored under `Game(id)`. -/
def store (s : ContractState) (id : Nat) (g : Game) : ContractState :=
  { s with games := fun i => if i = id then some g else s.games i }

/-- Body of `new_game`: bump the counter, persist a fresh record under the
new id, return the id.  (It cannot fault; authentication is external.) -/
def new_game (s : ContractState) (player1 : Address) : ContractState × Nat :=
  let count := game_count s + 1
  ({ store s count (freshGame player1 count) with gameCount := some count },
   count)

/-- Models `initialize` from the source (the name is reserved in Lean):
fails if the hub is already set, otherwise stores the hub address and resets
`GameCount` to 0. -/
def initHub (s : ContractState) (hub : Address) : Except Err ContractState :=
  if s.hub.isSome then .error .alreadyInit
  else .ok { s with hub := some hub, gameCount := some 0 }

/-- One invocation of a mutating entry point, with its arguments. -/
inductive Op where
  | initHub (hub : Address)
  | new_game (player1 : Address)
  | join_game (game_id : Nat) (player2 : Address)
  | commit_board (game_id : Nat) (player : Address) (board_hash : Digest)
  | take_shot (game_id : Nat) (player : Address) (x y : Nat)
  | report_result (game_id : Nat) (player : Address) (hit : Bool)
  | use_sonar (game_id : Nat) (player : Address) (cx cy : Nat)
  | report_sonar (game_id : Nat) (player : Address) (count : Nat)
  | claim_victory (game_id : Nat) (player : Address)
deriving DecidableEq, Repr

/-- `.get(&DataKey::Game(id)).expect("game not found")`. -/
def load (s : ContractState) (id : Nat) : Except Err Game :=
  match s.games id with
  | some g => .ok g
  | none => .error .gameNotFound

/-- Re-persist the record produced by a record-level transition. -/
def liftG (s : ContractState) (id : Nat) (r : Except Err Game) :
    Except Err ContractState :=
  match r with
  | .ok g => .ok (store s id g)
  | .error e => .error e

/-- Execute one entry point against the whole storage.  `commit_board` and
`claim_victory` additionally issue their hub notification when (and only
when) a hub is configured. -/
def apply (s : ContractState) : Op → Except Err ContractState
  | .initHub hub => initHub s hub
  | .new_game p => .ok (new_game s p).1
  | .join_game id p =>
      match load s id with
      | .error e => .error e
      | .ok g => liftG s id (join_game g p)
  | .commit_board id p h =>
      match load s id with
      | .error e => .error e
      | .ok g =>
        match commit_board g p h with
        | .error e => .error e
        | .ok g2 =>
          let s2 := store s id g2
          if g2.boards_committed = 2 ∧ s.hub.isSome then
            .ok { s2 with events := s2.events ++
                    [HubEvent.start_game g2.session_id g2.player1 g2.player2] }
          else .ok s2
  | .take_shot id p x y =>
      match load s id with
      | .error e => .error e
      | .ok g => liftG s id (take_shot g p x y)
  | .report_result id p hit =>
      match load s id with
      | .error e => .error e
      | .ok g => liftG s id (report_result g p hit)
  | .use_sonar id p cx cy =>
      match load s id with
      | .error e => .error e
      | .ok g => liftG s id (use_sonar g p cx cy)
  | .report_sonar id p c =>
      match load s id with
      | .error e => .error e
      | .ok g => liftG s id (report_sonar g p c)
  | .claim_victory id p =>
      match load s id with
      | .error e => .error e
      | .ok g =>
        match claim_victory g p with
        | .error e => .error e
        | .ok gw =>
          let s2 := store s id gw.1
          if s.hub.isSome then
            .ok { s2 with events := s2.events ++
                    [HubEvent.end_game gw.1.session_id gw.2] }
          else .ok s2

/-- The storages reachable from a fresh deployment by accepted operations. -/
inductive Reach : ContractState → Prop where
  | init : Reach initState
  | step {s s' : ContractState} {op : Op} :
      Reach s → apply s op = .ok s' → Reach s'

/-- Run a list of invocations, ignoring (aborting atomically) the ones that
fault. -/
def runOps (s : ContractState) : List Op → ContractState
  | [] => s
  | op :: rest =>
    match apply s op with
    | .ok s2 => runOps s2 rest
    | .error _ => runOps s rest

/-- Run a list of invocations, requiring every one of them to be accepted. -/
def runAll (s : ContractState) : List Op → Option ContractState
  | [] => some s
  | op :: rest =>
    match apply s op with
    | .ok s2 => runAll s2 rest
    | .error _ => none

/-- Evaluate a boolean check on the record stored under `id` after a trace;
`false` when the trace faulted or the record is absent. -/
def checkGame (s? : Option ContractState) (id : Nat) (p : Game → Bool) :
    Bool :=
  match s? with
  | some s =>
    match s.games id with
    | some g => p g
    | none => false
  | none => false

/-- Evaluate a boolean check on the whole storage after a trace. -/
def checkState (s? : Option ContractState) (p : ContractState → Bool) :
    Bool :=
  match s? with
  | some s => p s
  | none => false

/-! ### Concrete accepted traces used to exercise the engine

Player 1 carries address 1, player 2 address 2, and the committed digests
are the (nonzero) values 7 and 8 except where the zero digest is the point
of the trace. -/

/-- Create, join, and commit both boards for match 1: the standard way into
the in-progress phase. -/
def setupOps : List Op :=
  [Op.new_game 1, Op.join_game 1 2,
   Op.commit_board 1 1 7, Op.commit_board 1 2 8]

/-- One full round in which both shots miss. -/
def missRound : List Op :=
  [Op.take_shot 1 1 0 0, Op.report_result 1 2 false,
   Op.take_shot 1 2 9 9, Op.report_result 1 1 false]

/-- One full round in which player 1 hits and player 2 misses. -/
def hitRound : List Op :=
  [Op.take_shot 1 1 0 0, Op.report_result 1 2 true,
   Op.take_shot 1 2 9 9, Op.report_result 1 1 false]

/-- `n` copies of a block of invocations, concatenated. -/
def rep (xs : List Op) : Nat → List Op
  | 0 => []
  | n + 1 => xs ++ rep xs n

/-- Three miss rounds (so player 1 has taken three actions), then player 1
scans, then — while the sonar report is still outstanding — player 1 shoots. -/
def sonarThenShotTrace : List Op :=
  setupOps ++ rep missRound 3 ++ [Op.use_sonar 1 1 5 5]

/-- Seventeen rounds of player-1 hits, then a player-1 shot, then a victory
claim while the hit report is still outstanding. -/
def victoryPendingTrace : List Op :=
  setupOps ++ rep hitRound 17 ++ [Op.take_shot 1 1 0 0, Op.claim_victory 1 1]

/-- A single commit whose digest is the all-zero sentinel. -/
def zeroCommitTrace : List Op :=
  [Op.new_game 1, Op.commit_board 1 1 0]

/-- One full round of the self-game of address 1 (both seats read 1, so the
single address shoots and reports for both sides). -/
def selfRound : List Op :=
  [Op.take_shot 1 1 0 0, Op.report_result 1 1 false,
   Op.take_shot 1 1 9 9, Op.report_result 1 1 false]

/-- The open seat is never filled: address 1 commits the zero digest twice,
which starts the match with both seats reading 1; after three self rounds
and one extra half round the stored record has `turn = 2` with
`p2_turns_taken = 3`. -/
def selfGameTrace : List Op :=
  [Op.new_game 1, Op.commit_board 1 1 0, Op.commit_board 1 1 0] ++
  rep selfRound 3 ++
  [Op.take_shot 1 1 0 0, Op.report_result 1 1 false]

/-- A joined, committed, in-progress match between addresses 1 and 2, used
to instantiate the universally quantified theorems. -/
def liveGame : Game :=
  { freshGame 1 1 with
    player2 := 2, board_hash1 := 7, board_hash2 := 8,
    boards_committed := 2, status := 1 }

/-- Invariant of every stored record: the status is one of 0,1,2 and the
turn is one of 1,2. -/
def GInv (g : Game) : Prop := g.status ≤ 2 ∧ (g.turn = 1 ∨ g.turn = 2)

/-- Every record in the store satisfies `GInv`. -/
def StateInv (s : ContractState) : Prop :=
  ∀ id g, s.games id = some g → GInv g

/-- Whether an invocation addresses the stored match `i` (creation and
initialization are not operations on an existing match). -/
def Op.touches : Op → Nat → Prop
  | .join_game id _, i => id = i
  | .commit_board id _ _, i => id = i
  | .take_shot id _ _ _, i => id = i
  | .report_result id _ _, i => id = i
  | .use_sonar id _ _ _, i => id = i
  | .report_sonar id _ _, i => id = i
  | .claim_victory id _, i => id = i
  | .initHub _, _ => False
  | .new_game _, _ => False

/-- Number of `new_game` invocations in a trace (they are the successful
ones: `new_game` itself never faults). -/
def countNew : List Op → Nat
  | [] => 0
  | .new_game _ :: rest => countNew rest + 1
  | _ :: rest => countNew rest

/-- `true` iff the trace never calls `initialize`. -/
def noInitB (ops : List Op) : Bool :=
  ops.all fun op =>
    match op with
    | .initHub _ => false
    | _ => true

/-- Forget the hub configuration and the notifications issued so far. -/
def eraseHub (s : ContractState) : ContractState :=
  { s with hub := none, events := [] }

@[simp] theorem okB_ok {α : Type} (a : α) : okB (.ok a) = true := rfl

@[simp] theorem okB_error {α : Type} (e : Err) :
    okB (α := α) (.error e) = false := rfl

example : checkGame (runAll initState [Op.new_game 1]) 1
    (fun g => decide (g.status = 0 ∧ g.player2 = 1)) = true := by decide

example : checkGame (runAll initState
      [Op.new_game 1, Op.join_game 1 2,
       Op.commit_board 1 1 7, Op.commit_board 1 2 8]) 1
    (fun g => decide (g.status = 1 ∧ g.boards_committed = 2)) = true := by
  decide

example : checkGame (runAll initState selfGameTrace) 1
    (fun g => decide (g.status = 1 ∧ g.turn = 2 ∧ g.player1 = g.player2 ∧
      g.p2_turns_taken = 3 ∧ g.p2_sonar_used = false ∧
      g.awaiting_report = false ∧ g.awaiting_sonar = false)) = true := by
  decide

/-- Claim C1: the claim says at most one of `awaiting_report` and
`awaiting_sonar` is ever set and that `take_shot` cannot be accepted while
`awaiting_sonar` holds.  The code violates this: `take_shot` only checks
`awaiting_report`, and a pending sonar does not toggle `turn`, so the sonar
user's own shot is accepted and the accepted trace below ends with both
flags set in the stored record. -/
theorem C1_take_shot_during_sonar :
    checkGame (runAll initState (sonarThenShotTrace ++ [Op.take_shot 1 1 0 0]))
      1 (fun g => g.awaiting_report && g.awaiting_sonar) = true := by
  decide

/-- Claim C2: the claim says that after an accepted `use_sonar` every
operation other than the matching `report_sonar` aborts until that report
lands.  The code violates this: after the accepted `use_sonar` ending the
trace below (the stored record has `awaiting_sonar` set), a `take_shot` by
the sonar user is accepted. -/
theorem C2_shot_accepted_before_sonar_report :
    checkState (runAll initState sonarThenShotTrace)
      (fun s => (match s.games 1 with
                 | some g => g.awaiting_sonar
                 | none => false) &&
                okB (apply s (Op.take_shot 1 1 0 0))) = true := by
  decide

/-- Claim C3: the claim says an awaiting flag forces `status = 1`, so no
accepted `claim_victory` can leave `status = 2` with a flag still set.  The
code violates this: `claim_victory` neither checks nor clears the awaiting
flags, and the accepted trace below ends with `status = 2` and
`awaiting_report` still set. -/
theorem C3_victory_with_pending_report :
    checkGame (runAll initState victoryPendingTrace) 1
      (fun g => decide (g.status = 2) && g.awaiting_report) = true := by
  decide

/-- Claim C4: the claim says `boards_committed` always equals the number of
board hashes that differ from the all-zero sentinel, including when the
committed digest is itself all-zero.  The code violates this: committing the
zero digest is accepted (the slot still reads `0`, so the re-commit guard
also stays open) yet increments `boards_committed`, so after the accepted
trace below the count is 1 while both hashes equal the sentinel. -/
theorem C4_zero_digest_commit_breaks_count :
    checkGame (runAll initState zeroCommitTrace) 1
      (fun g => decide (g.boards_committed = 1 ∧ g.board_hash1 = 0 ∧
        g.board_hash2 = 0)) = true := by
  decide

/-- Claim C7 (counterexample): the claim says `use_sonar` at an in-range
center succeeds exactly when `sonar_available` returns true.  On the stored
record reached by `selfGameTrace` (both seats read address 1 and `turn = 2`)
`sonar_available` answers `false` through its player-1 branch, yet
`use_sonar` from the same address is accepted through its turn-2 branch. -/
theorem C7_sonar_available_mismatch :
    checkGame (runAll initState selfGameTrace) 1
      (fun g => !sonar_available g 1 && okB (use_sonar g 1 5 5)) = true := by
  decide

/-! ### Functional-correctness theorems about single entry points -/

/-- Claim C5: while the match is in setup with the seat still open
(`player2 == player1`), `commit_board` from any principal other than player1
aborts with the not-a-player fault (the record is re-persisted only on
success, so an abort leaves it unchanged), and an accepted commit by player1
writes the digest into slot 1 and never touches slot 2. -/
theorem C5_open_seat_commit (g : Game) (p : Address) (h : Digest)
    (hs : g.status = 0) (hseat : g.player2 = g.player1) :
    (p ≠ g.player1 → commit_board g p h = .error .notAPlayerInThisGame) ∧
    (p = g.player1 → ∀ g2, commit_board g p h = .ok g2 →
      g2.board_hash1 = h ∧ g2.board_hash2 = g.board_hash2 ∧
      g2.player1 = g.player1 ∧ g2.player2 = g.player2) := by
  constructor
  · intro hp
    simp [commit_board, hs, hseat, hp]
  · intro hp g2 hok
    subst hp
    unfold commit_board at hok
    split_ifs at hok with h1 h2 h3 h4 h5 <;>
      (try cases hok) <;>
      (try exact absurd rfl h2) <;>
      (simp only [commit_after]; split_ifs <;> simp)

theorem C5_open_seat_commit_witness :
    commit_board (freshGame 1 5) 9 7 = .error .notAPlayerInThisGame := by
  exact (C5_open_seat_commit (freshGame 1 5) 9 7 rfl rfl).1 (by decide)

/-- Claim C6: with the match in progress and a shot outstanding,
`report_result` from the defender (player2 when `turn = 1`, player1 when
`turn = 2`) is accepted, bumps the shooter's hit count exactly when `hit`
holds (leaving both counts alone otherwise), clears `awaiting_report` and
toggles `turn`; any other reporter, a wrong phase, or a missing outstanding
shot each abort with the corresponding fault. -/
theorem C6_report_result_spec (g : Game) (p : Address) (hit : Bool)
    (ht : g.turn = 1 ∨ g.turn = 2) :
    (g.status ≠ 1 → report_result g p hit = .error .gameNotInProgress) ∧
    (g.status = 1 → g.awaiting_report = false →
      report_result g p hit = .error .noShotToReport) ∧
    (g.status = 1 → g.awaiting_report = true →
      (p ≠ (if g.turn = 1 then g.player2 else g.player1) →
        report_result g p hit = .error .wrongPlayerReporting) ∧
      (p = (if g.turn = 1 then g.player2 else g.player1) →
        okB (report_result g p hit) = true ∧
        ∀ g2, report_result g p hit = .ok g2 →
          g2.awaiting_report = false ∧
          g2.turn = (if g.turn = 1 then 2 else 1) ∧
          (hit = true →
            (g.turn = 1 → g2.p1_hits = g.p1_hits + 1 ∧ g2.p2_hits = g.p2_hits) ∧
            (g.turn = 2 → g2.p2_hits = g.p2_hits + 1 ∧ g2.p1_hits = g.p1_hits)) ∧
          (hit = false → g2.p1_hits = g.p1_hits ∧ g2.p2_hits = g.p2_hits))) := by
  refine ⟨?_, ?_, ?_⟩
  · intro hs
    simp [report_result, hs]
  · intro hs ha
    simp [report_result, hs, ha]
  · intro hs ha
    rcases ht with ht | ht <;>
      refine ⟨fun hp => ?_, fun hp => ⟨?_, fun g2 hok => ?_⟩⟩
    · simp [ht] at hp
      simp [report_result, hs, ha, ht, hp]
    · simp [ht] at hp
      simp [report_result, okB, hs, ha, ht, hp]
    · simp [ht] at hp
      simp [report_result, hs, ha, ht, hp] at hok
      subst hok
      cases hit <;> simp [ht]
    · simp [ht] at hp
      simp [report_result, hs, ha, ht, hp]
    · simp [ht] at hp
      simp [report_result, okB, hs, ha, ht, hp]
    · simp [ht] at hp
      simp [report_result, hs, ha, ht, hp] at hok
      subst hok
      cases hit <;> simp [ht]

theorem C6_report_result_spec_witness :
    okB (report_result { liveGame with awaiting_report := true } 2 true)
      = true :=
  (((C6_report_result_spec { liveGame with awaiting_report := true } 2 true
      (Or.inl (by decide))).2.2 (by decide) (by decide)).2 (by decide)).1

/-- Claim C8: with the remaining preconditions of each entry point
satisfied, `take_shot` and `use_sonar` accept exactly the coordinates with
both components below 10 and abort with their out-of-bounds fault otherwise,
and `report_sonar` accepts exactly the counts up to 9, aborting with the
invalid-count fault from 10 on; an abort is never re-persisted, so the
record is unchanged. -/
theorem C8_bounds_checks (g : Game) :
    (∀ p x y, g.status = 1 → g.awaiting_report = false →
      ((g.turn = 1 → p = g.player1) ∧ (g.turn ≠ 1 → p = g.player2)) →
      (x < 10 ∧ y < 10 → okB (take_shot g p x y) = true) ∧
      (¬(x < 10 ∧ y < 10) → take_shot g p x y = .error .shotOutOfBounds)) ∧
    (∀ p cx cy, g.status = 1 → g.awaiting_report = false →
      g.awaiting_sonar = false →
      ((g.turn = 1 →
          p = g.player1 ∧ g.p1_sonar_used = false ∧ 3 ≤ g.p1_turns_taken) ∧
       (g.turn ≠ 1 →
          p = g.player2 ∧ g.p2_sonar_used = false ∧ 3 ≤ g.p2_turns_taken)) →
      (cx < 10 ∧ cy < 10 → okB (use_sonar g p cx cy) = true) ∧
      (¬(cx < 10 ∧ cy < 10) →
        use_sonar g p cx cy = .error .sonarOutOfBounds)) ∧
    (∀ p c, g.status = 1 → g.awaiting_sonar = true →
      p = (if g.turn = 1 then g.player2 else g.player1) →
      (c ≤ 9 → okB (report_sonar g p c) = true) ∧
      (10 ≤ c → report_sonar g p c = .error .invalidSonarCount)) := by
  refine ⟨?_, ?_, ?_⟩
  · intro p x y hs ha hturn
    constructor
    · intro hxy
      by_cases ht : g.turn = 1
      · have hp := hturn.1 ht
        simp [take_shot, okB, hs, ha, hxy.1, hxy.2, ht, hp]
      · have hp := hturn.2 ht
        simp [take_shot, okB, hs, ha, hxy.1, hxy.2, ht, hp]
    · intro hxy
      simp [take_shot, hs, ha, hxy]
  · intro p cx cy hs ha has hturn
    constructor
    · intro hxy
      by_cases ht : g.turn = 1
      · obtain ⟨hp, hu, h3⟩ := hturn.1 ht
        have h3' : ¬(g.p1_turns_taken < 3) := by omega
        simp [use_sonar, okB, hs, ha, has, hxy.1, hxy.2, ht, hp, hu, h3']
      · obtain ⟨hp, hu, h3⟩ := hturn.2 ht
        have h3' : ¬(g.p2_turns_taken < 3) := by omega
        simp [use_sonar, okB, hs, ha, has, hxy.1, hxy.2, ht, hp, hu, h3']
    · intro hxy
      simp [use_sonar, hs, ha, has, hxy]
  · intro p c hs has hp
    constructor
    · intro hc
      by_cases ht : g.turn = 1
      · simp [ht] at hp
        simp [report_sonar, okB, hs, has, hc, ht, hp]
      · simp [ht] at hp
        simp [report_sonar, okB, hs, has, hc, ht, hp]
    · intro hc
      have hc' : ¬(c ≤ 9) := by omega
      simp [report_sonar, hs, has, hc']

theorem C8_bounds_checks_witness :
    okB (take_shot liveGame 1 9 9) = true ∧
    take_shot liveGame 1 10 0 = .error .shotOutOfBounds ∧
    okB (use_sonar { liveGame with p1_turns_taken := 3 } 1 0 0) = true ∧
    use_sonar { liveGame with p1_turns_taken := 3 } 1 0 10
      = .error .sonarOutOfBounds ∧
    okB (report_sonar { liveGame with awaiting_sonar := true } 2 9) = true ∧
    report_sonar { liveGame with awaiting_sonar := true } 2 10
      = .error .invalidSonarCount := by
  refine ⟨?_, ?_, ?_, ?_, ?_, ?_⟩
  · exact ((C8_bounds_checks liveGame).1 1 9 9 (by decide) (by decide)
      (by decide)).1 (by decide)
  · exact ((C8_bounds_checks liveGame).1 1 10 0 (by decide) (by decide)
      (by decide)).2 (by decide)
  · exact ((C8_bounds_checks { liveGame with p1_turns_taken := 3 }).2.1
      1 0 0 (by decide) (by decide) (by decide) (by decide)).1 (by decide)
  · exact ((C8_bounds_checks { liveGame with p1_turns_taken := 3 }).2.1
      1 0 10 (by decide) (by decide) (by decide) (by decide)).2 (by decide)
  · exact ((C8_bounds_checks { liveGame with awaiting_sonar := true }).2.2
      2 9 (by decide) (by decide) (by decide)).1 (by decide)
  · exact ((C8_bounds_checks { liveGame with awaiting_sonar := true }).2.2
      2 10 (by decide) (by decide) (by decide)).2 (by decide)

/-- Exact success condition of `sonar_available`, read off its branches. -/
theorem sonar_available_iff (g : Game) (p : Address) :
    sonar_available g p = true ↔
      g.status = 1 ∧ g.awaiting_report = false ∧ g.awaiting_sonar = false ∧
      ((p = g.player1 ∧ g.turn = 1 ∧ g.p1_sonar_used = false ∧
          3 ≤ g.p1_turns_taken) ∨
       (p ≠ g.player1 ∧ p = g.player2 ∧ g.turn = 2 ∧
          g.p2_sonar_used = false ∧ 3 ≤ g.p2_turns_taken)) := by
  unfold sonar_available
  split_ifs <;> (try casesm* _ ∨ _) <;> simp_all <;> try tauto

/-- Exact success condition of `use_sonar`, read off its branches. -/
theorem use_sonar_ok_iff (g : Game) (p : Address) (cx cy : Nat) :
    okB (use_sonar g p cx cy) = true ↔
      g.status = 1 ∧ g.awaiting_report = false ∧ g.awaiting_sonar = false ∧
      (cx < 10 ∧ cy < 10) ∧
      ((g.turn = 1 ∧ p = g.player1 ∧ g.p1_sonar_used = false ∧
          ¬(g.p1_turns_taken < 3)) ∨
       (g.turn ≠ 1 ∧ p = g.player2 ∧ g.p2_sonar_used = false ∧
          ¬(g.p2_turns_taken < 3))) := by
  unfold use_sonar
  split_ifs <;> (try casesm* _ ∨ _) <;> simp_all <;> try tauto

/-- Claim C7 (amended): for every match record whose `turn` is 1 or 2 and
whose two seats are distinct whenever the match is in progress — both facts
hold on records reached without the zero-digest commit exploit — and every
in-range center, `use_sonar` is accepted exactly when `sonar_available`
returns true, and `sonar_available` returns true iff the match is in
progress, neither report is outstanding, the player's side matches `turn`,
that side's sonar is unused and that side has taken at least 3 actions. -/
theorem C7_use_sonar_iff_available (g : Game) (p : Address) (cx cy : Nat)
    (ht : g.turn = 1 ∨ g.turn = 2)
    (hd : g.status = 1 → g.player1 ≠ g.player2)
    (hx : cx < 10) (hy : cy < 10) :
    okB (use_sonar g p cx cy) = sonar_available g p ∧
    (sonar_available g p = true ↔
      g.status = 1 ∧ g.awaiting_report = false ∧ g.awaiting_sonar = false ∧
      ((p = g.player1 ∧ g.turn = 1 ∧ g.p1_sonar_used = false ∧
          3 ≤ g.p1_turns_taken) ∨
       (p = g.player2 ∧ g.turn = 2 ∧ g.p2_sonar_used = false ∧
          3 ≤ g.p2_turns_taken))) := by
  constructor
  · rw [Bool.eq_iff_iff, use_sonar_ok_iff, sonar_available_iff]
    constructor
    · rintro ⟨hs, har, has, _, hside⟩
      refine ⟨hs, har, has, ?_⟩
      rcases hside with ⟨ht1, hp, hu, h3⟩ | ⟨ht1, hp, hu, h3⟩
      · exact Or.inl ⟨hp, ht1, hu, by omega⟩
      · have ht2 : g.turn = 2 := by rcases ht with h | h <;> omega
        refine Or.inr ⟨?_, hp, ht2, hu, by omega⟩
        intro hp1
        exact hd hs (by rw [← hp1, hp])
    · rintro ⟨hs, har, has, hside⟩
      refine ⟨hs, har, has, ⟨hx, hy⟩, ?_⟩
      rcases hside with ⟨hp, ht1, hu, h3⟩ | ⟨hne, hp, ht2, hu, h3⟩
      · exact Or.inl ⟨ht1, hp, hu, by omega⟩
      · exact Or.inr ⟨by omega, hp, hu, by omega⟩
  · rw [sonar_available_iff]
    constructor
    · rintro ⟨hs, har, has, hside⟩
      refine ⟨hs, har, has, ?_⟩
      rcases hside with ⟨hp, ht1, hu, h3⟩ | ⟨hne, hp, ht2, hu, h3⟩
      · exact Or.inl ⟨hp, ht1, hu, h3⟩
      · exact Or.inr ⟨hp, ht2, hu, h3⟩
    · rintro ⟨hs, har, has, hside⟩
      refine ⟨hs, har, has, ?_⟩
      rcases hside with ⟨hp, ht1, hu, h3⟩ | ⟨hp, ht2, hu, h3⟩
      · exact Or.inl ⟨hp, ht1, hu, h3⟩
      · refine Or.inr ⟨?_, hp, ht2, hu, h3⟩
        intro hp1
        exact hd hs (by rw [← hp1, hp])

theorem load_some {s : ContractState} {id : Nat} {g : Game}
    (h : load s id = .ok g) : s.games id = some g := by
  unfold load at h
  cases hs : s.games id <;> rw [hs] at h <;> cases h <;> rfl

theorem some_load {s : ContractState} {id : Nat} {g : Game}
    (h : s.games id = some g) : load s id = .ok g := by
  unfold load
  rw [h]

theorem store_games_self (s : ContractState) (id : Nat) (g : Game) :
    (store s id g).games id = some g := by
  simp [store]

theorem store_games_other {s : ContractState} {id i : Nat} (g : Game)
    (h : i ≠ id) : (store s id g).games i = s.games i := by
  simp [store, h]

theorem liftG_ok {s : ContractState} {id : Nat} {r : Except Err Game}
    {s2 : ContractState} (h : liftG s id r = .ok s2) :
    ∃ g2, r = .ok g2 ∧ s2 = store s id g2 := by
  unfold liftG at h
  cases r with
  | error e => cases h
  | ok g2 => cases h; exact ⟨g2, rfl, rfl⟩

theorem commit_after_inv {g : Game} (hg : GInv g) : GInv (commit_after g) := by
  unfold commit_after
  dsimp only
  split_ifs
  · exact ⟨by norm_num, hg.2⟩
  · exact ⟨hg.1, hg.2⟩

theorem join_game_inv {g g2 : Game} {p : Address} (hg : GInv g)
    (h : join_game g p = .ok g2) : GInv g2 := by
  unfold join_game at h
  split_ifs at h
  cases h
  exact ⟨hg.1, hg.2⟩

theorem commit_board_inv {g g2 : Game} {p : Address} {d : Digest}
    (hg : GInv g) (h : commit_board g p d = .ok g2) : GInv g2 := by
  unfold commit_board at h
  split_ifs at h <;> cases h <;> exact commit_after_inv ⟨hg.1, hg.2⟩

theorem take_shot_inv {g g2 : Game} {p : Address} {x y : Nat} (hg : GInv g)
    (h : take_shot g p x y = .ok g2) : GInv g2 := by
  unfold take_shot at h
  split_ifs at h <;> cases h <;> exact ⟨hg.1, hg.2⟩

theorem report_result_inv {g g2 : Game} {p : Address} {hit : Bool}
    (hg : GInv g) (h : report_result g p hit = .ok g2) : GInv g2 := by
  unfold report_result at h
  split_ifs at h <;> cases h <;>
    first
      | exact ⟨hg.1, Or.inl rfl⟩
      | exact ⟨hg.1, Or.inr rfl⟩

theorem use_sonar_inv {g g2 : Game} {p : Address} {cx cy : Nat} (hg : GInv g)
    (h : use_sonar g p cx cy = .ok g2) : GInv g2 := by
  unfold use_sonar at h
  split_ifs at h <;> cases h <;> exact ⟨hg.1, hg.2⟩

theorem report_sonar_inv {g g2 : Game} {p : Address} {c : Nat} (hg : GInv g)
    (h : report_sonar g p c = .ok g2) : GInv g2 := by
  unfold report_sonar at h
  split_ifs at h <;> cases h <;>
    first
      | exact ⟨hg.1, Or.inl rfl⟩
      | exact ⟨hg.1, Or.inr rfl⟩

theorem claim_victory_inv {g : Game} {gw : Game × Bool} {p : Address}
    (hg : GInv g) (h : claim_victory g p = .ok gw) : GInv gw.1 := by
  unfold claim_victory at h
  split_ifs at h <;> cases h <;> exact ⟨by norm_num, hg.2⟩

theorem store_inv {s : ContractState} {id : Nat} {g2 : Game}
    (hinv : StateInv s) (hg2 : GInv g2) : StateInv (store s id g2) := by
  intro i gi hgi
  simp only [store] at hgi
  split_ifs at hgi with hi
  · cases hgi; exact hg2
  · exact hinv i gi hgi

theorem apply_inv {s s2 : ContractState} {op : Op} (hinv : StateInv s)
    (h : apply s op = .ok s2) : StateInv s2 := by
  cases op with
  | initHub hub =>
    simp only [apply, initHub] at h
    split_ifs at h
    cases h
    exact fun id g hg => hinv id g hg
  | new_game p =>
    simp only [apply] at h
    cases h
    intro i gi hgi
    simp only [new_game, store] at hgi
    split_ifs at hgi with hi
    · cases hgi
      exact ⟨by change (0:Nat) ≤ 2; omega, Or.inl rfl⟩
    · exact hinv i gi hgi
  | join_game id p =>
    simp only [apply] at h
    cases hl : load s id <;> simp only [hl] at h
    · cases h
    · obtain ⟨g2, hr, rfl⟩ := liftG_ok h
      exact store_inv hinv
        (join_game_inv (hinv id _ (load_some hl)) hr)
  | commit_board id p d =>
    simp only [apply] at h
    cases hl : load s id <;> simp only [hl] at h
    · cases h
    · rename_i g
      cases hc : commit_board g p d <;> simp only [hc] at h
      · cases h
      · rename_i g2
        have hg2 : GInv g2 :=
          commit_board_inv (hinv id g (load_some hl)) hc
        split_ifs at h <;> cases h <;>
          exact fun i gi hgi => store_inv hinv hg2 i gi hgi
  | take_shot id p x y =>
    simp only [apply] at h
    cases hl : load s id <;> simp only [hl] at h
    · cases h
    · obtain ⟨g2, hr, rfl⟩ := liftG_ok h
      exact store_inv hinv
        (take_shot_inv (hinv id _ (load_some hl)) hr)
  | report_result id p hit =>
    simp only [apply] at h
    cases hl : load s id <;> simp only [hl] at h
    · cases h
    · obtain ⟨g2, hr, rfl⟩ := liftG_ok h
      exact store_inv hinv
        (report_result_inv (hinv id _ (load_some hl)) hr)
  | use_sonar id p cx cy =>
    simp only [apply] at h
    cases hl : load s id <;> simp only [hl] at h
    · cases h
    · obtain ⟨g2, hr, rfl⟩ := liftG_ok h
      exact store_inv hinv
        (use_sonar_inv (hinv id _ (load_some hl)) hr)
  | report_sonar id p c =>
    simp only [apply] at h
    cases hl : load s id <;> simp only [hl] at h
    · cases h
    · obtain ⟨g2, hr, rfl⟩ := liftG_ok h
      exact store_inv hinv
        (report_sonar_inv (hinv id _ (load_some hl)) hr)
  | claim_victory id p =>
    simp only [apply] at h
    cases hl : load s id <;> simp only [hl] at h
    · cases h
    · rename_i g
      cases hc : claim_victory g p <;> simp only [hc] at h
      · cases h
      · rename_i gw
        have hg2 : GInv gw.1 :=
          claim_victory_inv (hinv id g (load_some hl)) hc
        split_ifs at h <;> cases h <;>
          exact fun i gi hgi => store_inv hinv hg2 i gi hgi

theorem reach_inv {s : ContractState} (h : Reach s) : StateInv s := by
  induction h with
  | init => intro id g hg; cases hg
  | step _ hstep ih => exact apply_inv ih hstep

theorem join_game_ok_status {g g2 : Game} {p : Address}
    (h : join_game g p = .ok g2) : g2.status = g.status := by
  unfold join_game at h
  split_ifs at h <;> cases h <;> rfl

theorem take_shot_ok_status {g g2 : Game} {p : Address} {x y : Nat}
    (h : take_shot g p x y = .ok g2) : g2.status = g.status := by
  unfold take_shot at h
  split_ifs at h <;> cases h <;> rfl

theorem report_result_ok_status {g g2 : Game} {p : Address} {hit : Bool}
    (h : report_result g p hit = .ok g2) : g2.status = g.status := by
  unfold report_result at h
  split_ifs at h <;> cases h <;> rfl

theorem use_sonar_ok_status {g g2 : Game} {p : Address} {cx cy : Nat}
    (h : use_sonar g p cx cy = .ok g2) : g2.status = g.status := by
  unfold use_sonar at h
  split_ifs at h <;> cases h <;> rfl

theorem report_sonar_ok_status {g g2 : Game} {p : Address} {c : Nat}
    (h : report_sonar g p c = .ok g2) : g2.status = g.status := by
  unfold report_sonar at h
  split_ifs at h <;> cases h <;> rfl

theorem commit_board_ok_status {g g2 : Game} {p : Address} {d : Digest}
    (h : commit_board g p d = .ok g2) :
    g2.status = g.status ∨
    (g.status = 0 ∧ g2.status = 1 ∧ g2.boards_committed = 2) := by
  unfold commit_board at h
  split_ifs at h with h1 h2 h3 h4 h5 <;> cases h <;>
    (unfold commit_after; dsimp only; split_ifs with hb) <;>
    first
      | exact Or.inr ⟨by omega, rfl, hb⟩
      | exact Or.inl rfl

theorem claim_victory_ok_status {g : Game} {gw : Game × Bool} {p : Address}
    (h : claim_victory g p = .ok gw) : g.status = 1 ∧ gw.1.status = 2 := by
  unfold claim_victory at h
  split_ifs at h <;> cases h <;> exact ⟨by omega, rfl⟩

theorem join_game_done {g : Game} {p : Address} (h : g.status = 2) :
    join_game g p = .error .notInSetup := by
  unfold join_game
  rw [if_pos (by omega)]

theorem commit_board_done {g : Game} {p : Address} {d : Digest}
    (h : g.status = 2) : commit_board g p d = .error .notInSetup := by
  unfold commit_board
  rw [if_pos (by omega)]

theorem take_shot_done {g : Game} {p : Address} {x y : Nat}
    (h : g.status = 2) : take_shot g p x y = .error .gameNotInProgress := by
  unfold take_shot
  rw [if_pos (by omega)]

theorem report_result_done {g : Game} {p : Address} {hit : Bool}
    (h : g.status = 2) :
    report_result g p hit = .error .gameNotInProgress := by
  unfold report_result
  rw [if_pos (by omega)]

theorem use_sonar_done {g : Game} {p : Address} {cx cy : Nat}
    (h : g.status = 2) : use_sonar g p cx cy = .error .gameNotInProgress := by
  unfold use_sonar
  rw [if_pos (by omega)]

theorem report_sonar_done {g : Game} {p : Address} {c : Nat}
    (h : g.status = 2) : report_sonar g p c = .error .gameNotInProgress := by
  unfold report_sonar
  rw [if_pos (by omega)]

theorem claim_victory_done {g : Game} {p : Address} (h : g.status = 2) :
    claim_victory g p = .error .gameNotInProgress := by
  unfold claim_victory
  rw [if_pos (by omega)]

/-- Claim C9: on every reachable storage, every stored record has status 0,
1 or 2; an accepted operation on that match either keeps the status, moves
it from 0 to 1 (and only a `commit_board` completing both boards does), or
moves it from 1 to 2 (and only a `claim_victory` does), never backwards;
and once status is 2 every mutating operation on that match aborts, so the
record is terminal. -/
theorem C9_status_monotone_terminal :
    ∀ s : ContractState, Reach s → ∀ id g, s.games id = some g →
      g.status ≤ 2 ∧
      (∀ op s2 g2, Op.touches op id → apply s op = .ok s2 →
        s2.games id = some g2 →
        g2.status = g.status ∨
        (g.status = 0 ∧ g2.status = 1 ∧ g2.boards_committed = 2 ∧
          ∃ p d, op = .commit_board id p d) ∨
        (g.status = 1 ∧ g2.status = 2 ∧ ∃ p, op = .claim_victory id p)) ∧
      (g.status = 2 → ∀ op, Op.touches op id → okB (apply s op) = false) := by
  intro s hreach id g hg
  refine ⟨(reach_inv hreach id g hg).1, ?_, ?_⟩
  · intro op s2 g2 htouch happ hg2
    cases op with
    | initHub hub => cases htouch
    | new_game p => cases htouch
    | join_game jid p =>
      cases htouch
      simp only [apply] at happ
      cases hl : load s id <;> simp only [hl] at happ
      · cases happ
      · rename_i gl
        have h1 := load_some hl
        rw [hg] at h1
        cases h1
        obtain ⟨g2b, hr, rfl⟩ := liftG_ok happ
        rw [store_games_self] at hg2
        cases hg2
        exact Or.inl (join_game_ok_status hr)
    | take_shot jid p x y =>
      cases htouch
      simp only [apply] at happ
      cases hl : load s id <;> simp only [hl] at happ
      · cases happ
      · rename_i gl
        have h1 := load_some hl
        rw [hg] at h1
        cases h1
        obtain ⟨g2b, hr, rfl⟩ := liftG_ok happ
        rw [store_games_self] at hg2
        cases hg2
        exact Or.inl (take_shot_ok_status hr)
    | report_result jid p hit =>
      cases htouch
      simp only [apply] at happ
      cases hl : load s id <;> simp only [hl] at happ
      · cases happ
      · rename_i gl
        have h1 := load_some hl
        rw [hg] at h1
        cases h1
        obtain ⟨g2b, hr, rfl⟩ := liftG_ok happ
        rw [store_games_self] at hg2
        cases hg2
        exact Or.inl (report_result_ok_status hr)
    | use_sonar jid p cx cy =>
      cases htouch
      simp only [apply] at happ
      cases hl : load s id <;> simp only [hl] at happ
      · cases happ
      · rename_i gl
        have h1 := load_some hl
        rw [hg] at h1
        cases h1
        obtain ⟨g2b, hr, rfl⟩ := liftG_ok happ
        rw [store_games_self] at hg2
        cases hg2
        exact Or.inl (use_sonar_ok_status hr)
    | report_sonar jid p c =>
      cases htouch
      simp only [apply] at happ
      cases hl : load s id <;> simp only [hl] at happ
      · cases happ
      · rename_i gl
        have h1 := load_some hl
        rw [hg] at h1
        cases h1
        obtain ⟨g2b, hr, rfl⟩ := liftG_ok happ
        rw [store_games_self] at hg2
        cases hg2
        exact Or.inl (report_sonar_ok_status hr)
    | commit_board jid p d =>
      cases htouch
      simp only [apply] at happ
      cases hl : load s id <;> simp only [hl] at happ
      · cases happ
      · rename_i gl
        have h1 := load_some hl
        rw [hg] at h1
        cases h1
        cases hc : commit_board g p d <;> simp only [hc] at happ
        · cases happ
        · rename_i gr
          have hst := commit_board_ok_status hc
          split_ifs at happ <;> cases happ <;>
            simp only [store, if_true] at hg2 <;> cases hg2 <;>
            rcases hst with heq | ⟨h0, h1s, hb⟩ <;>
            first
              | exact Or.inl heq
              | exact Or.inr (Or.inl ⟨h0, h1s, hb, p, d, rfl⟩)
    | claim_victory jid p =>
      cases htouch
      simp only [apply] at happ
      cases hl : load s id <;> simp only [hl] at happ
      · cases happ
      · rename_i gl
        have h1 := load_some hl
        rw [hg] at h1
        cases h1
        cases hc : claim_victory g p <;> simp only [hc] at happ
        · cases happ
        · rename_i gw
          have hst := claim_victory_ok_status hc
          split_ifs at happ <;> cases happ <;>
            simp only [store, if_true] at hg2 <;> cases hg2 <;>
            exact Or.inr (Or.inr ⟨hst.1, hst.2, p, rfl⟩)
  · intro h2 op htouch
    cases op with
    | initHub hub => cases htouch
    | new_game p => cases htouch
    | join_game jid p =>
      cases htouch
      simp [apply, some_load hg, join_game_done h2, liftG]
    | commit_board jid p d =>
      cases htouch
      simp [apply, some_load hg, commit_board_done h2]
    | take_shot jid p x y =>
      cases htouch
      simp [apply, some_load hg, take_shot_done h2, liftG]
    | report_result jid p hit =>
      cases htouch
      simp [apply, some_load hg, report_result_done h2, liftG]
    | use_sonar jid p cx cy =>
      cases htouch
      simp [apply, some_load hg, use_sonar_done h2, liftG]
    | report_sonar jid p c =>
      cases htouch
      simp [apply, some_load hg, report_sonar_done h2, liftG]
    | claim_victory jid p =>
      cases htouch
      simp [apply, some_load hg, claim_victory_done h2]

theorem C9_status_monotone_terminal_witness : (freshGame 1 1).status ≤ 2 := by
  have hr : Reach (new_game initState 1).1 :=
    @Reach.step initState (new_game initState 1).1 (Op.new_game 1)
      Reach.init rfl
  exact (C9_status_monotone_terminal (new_game initState 1).1 hr 1
    (freshGame 1 1) rfl).1

theorem C7_use_sonar_iff_available_witness :
    okB (use_sonar { liveGame with p1_turns_taken := 4 } 1 5 5)
      = sonar_available { liveGame with p1_turns_taken := 4 } 1 :=
  (C7_use_sonar_iff_available { liveGame with p1_turns_taken := 4 } 1 5 5
    (Or.inl (by decide)) (fun _ => by decide) (by decide) (by decide)).1

theorem apply_keeps_count {s s2 : ContractState} {op : Op}
    (hno : ∀ hub, op ≠ Op.initHub hub) (hnn : ∀ p, op ≠ Op.new_game p)
    (h : apply s op = .ok s2) : s2.gameCount = s.gameCount := by
  cases op with
  | initHub hub => exact absurd rfl (hno hub)
  | new_game p => exact absurd rfl (hnn p)
  | join_game id p =>
    simp only [apply] at h
    cases hl : load s id <;> simp only [hl] at h
    · cases h
    · obtain ⟨g2, hr, rfl⟩ := liftG_ok h
      rfl
  | commit_board id p d =>
    simp only [apply] at h
    cases hl : load s id <;> simp only [hl] at h
    · cases h
    · rename_i g
      cases hc : commit_board g p d <;> simp only [hc] at h
      · cases h
      · split_ifs at h <;> cases h <;> rfl
  | take_shot id p x y =>
    simp only [apply] at h
    cases hl : load s id <;> simp only [hl] at h
    · cases h
    · obtain ⟨g2, hr, rfl⟩ := liftG_ok h
      rfl
  | report_result id p hit =>
    simp only [apply] at h
    cases hl : load s id <;> simp only [hl] at h
    · cases h
    · obtain ⟨g2, hr, rfl⟩ := liftG_ok h
      rfl
  | use_sonar id p cx cy =>
    simp only [apply] at h
    cases hl : load s id <;> simp only [hl] at h
    · cases h
    · obtain ⟨g2, hr, rfl⟩ := liftG_ok h
      rfl
  | report_sonar id p c =>
    simp only [apply] at h
    cases hl : load s id <;> simp only [hl] at h
    · cases h
    · obtain ⟨g2, hr, rfl⟩ := liftG_ok h
      rfl
  | claim_victory id p =>
    simp only [apply] at h
    cases hl : load s id <;> simp only [hl] at h
    · cases h
    · rename_i g
      cases hc : claim_victory g p <;> simp only [hc] at h
      · cases h
      · split_ifs at h <;> cases h <;> rfl

theorem runOps_count :
    ∀ (ops : List Op) (s : ContractState), noInitB ops = true →
      game_count (runOps s ops) = game_count s + countNew ops := by
  intro ops
  induction ops with
  | nil => intro s _; rfl
  | cons op rest ih =>
    intro s hni
    have hsplit : (∀ hub, op ≠ Op.initHub hub) ∧ noInitB rest = true := by
      cases op <;> simp_all [noInitB, List.all]
    obtain ⟨hno, hni2⟩ := hsplit
    by_cases hng : ∃ p, op = Op.new_game p
    · obtain ⟨p, rfl⟩ := hng
      have hrw : runOps s (Op.new_game p :: rest)
          = runOps (new_game s p).1 rest := rfl
      rw [hrw, ih ((new_game s p).1) hni2]
      have h2 : game_count (new_game s p).1 = game_count s + 1 := rfl
      rw [h2]
      have h3 : countNew (Op.new_game p :: rest) = countNew rest + 1 := rfl
      rw [h3]
      omega
    · have hnn : ∀ p, op ≠ Op.new_game p := fun p hp => hng ⟨p, hp⟩
      have hcn : countNew (op :: rest) = countNew rest := by
        cases op <;> first | rfl | exact absurd rfl (hnn _)
      rw [hcn]
      cases ha : apply s op with
      | ok s2 =>
        have hrw : runOps s (op :: rest) = runOps s2 rest := by
          simp only [runOps, ha]
        rw [hrw, ih s2 hni2]
        unfold game_count
        rw [apply_keeps_count hno hnn ha]
      | error e =>
        have hrw : runOps s (op :: rest) = runOps s rest := by
          simp only [runOps, ha]
        rw [hrw, ih s hni2]

theorem apply_eraseHub (s : ContractState) (op : Op)
    (hno : ∀ hub, op ≠ Op.initHub hub) :
    apply (eraseHub s) op = (apply s op).map eraseHub := by
  cases op with
  | initHub hub => exact absurd rfl (hno hub)
  | new_game p => rfl
  | join_game id p =>
    simp only [apply]
    rw [show load (eraseHub s) id = load s id from rfl]
    cases hl : load s id <;> simp only [hl]
    · rfl
    · rename_i g
      cases hj : join_game g p <;> simp only [hj, liftG] <;> rfl
  | commit_board id p d =>
    simp only [apply]
    rw [show load (eraseHub s) id = load s id from rfl]
    cases hl : load s id <;> simp only [hl]
    · rfl
    · rename_i g
      cases hc : commit_board g p d <;> simp only [hc]
      · rfl
      · split_ifs <;> first | rfl | simp_all [eraseHub]
  | take_shot id p x y =>
    simp only [apply]
    rw [show load (eraseHub s) id = load s id from rfl]
    cases hl : load s id <;> simp only [hl]
    · rfl
    · rename_i g
      cases hj : take_shot g p x y <;> simp only [hj, liftG] <;> rfl
  | report_result id p hit =>
    simp only [apply]
    rw [show load (eraseHub s) id = load s id from rfl]
    cases hl : load s id <;> simp only [hl]
    · rfl
    · rename_i g
      cases hj : report_result g p hit <;> simp only [hj, liftG] <;> rfl
  | use_sonar id p cx cy =>
    simp only [apply]
    rw [show load (eraseHub s) id = load s id from rfl]
    cases hl : load s id <;> simp only [hl]
    · rfl
    · rename_i g
      cases hj : use_sonar g p cx cy <;> simp only [hj, liftG] <;> rfl
  | report_sonar id p c =>
    simp only [apply]
    rw [show load (eraseHub s) id = load s id from rfl]
    cases hl : load s id <;> simp only [hl]
    · rfl
    · rename_i g
      cases hj : report_sonar g p c <;> simp only [hj, liftG] <;> rfl
  | claim_victory id p =>
    simp only [apply]
    rw [show load (eraseHub s) id = load s id from rfl]
    cases hl : load s id <;> simp only [hl]
    · rfl
    · rename_i g
      cases hc : claim_victory g p <;> simp only [hc]
      · rfl
      · split_ifs <;> first | rfl | simp_all [eraseHub]

/-- Claim C10: on a fresh deployment `game_count` answers 0 without
`initialize` ever having run; along any trace that never calls
`initialize`, `game_count` equals the number of `new_game` calls (all of
which succeed) and the next `new_game` returns one more than that count —
so the first returns 1; and for every state and every operation other than
`initialize`, running without a configured hub produces the same outcome as
running with one minus the hub bookkeeping, i.e. `initialize` is a
precondition for nothing but the hub notifications. -/
theorem C10_init_not_required :
    game_count initState = 0 ∧
    (∀ (ops : List Op) (p : Address), noInitB ops = true →
      game_count (runOps initState ops) = countNew ops ∧
      (new_game (runOps initState ops) p).2 = countNew ops + 1) ∧
    (∀ (s : ContractState) (op : Op), (∀ hub, op ≠ Op.initHub hub) →
      apply (eraseHub s) op = (apply s op).map eraseHub) := by
  refine ⟨rfl, ?_, apply_eraseHub⟩
  intro ops p hni
  have h := runOps_count ops initState hni
  have h0 : game_count initState = 0 := rfl
  rw [h0] at h
  constructor
  · simpa using h
  · have h2 : (new_game (runOps initState ops) p).2
        = game_count (runOps initState ops) + 1 := rfl
    rw [h2, h]
    omega

theorem C10_init_not_required_witness :
    game_count (runOps initState [Op.new_game 1, Op.new_game 2]) = 2 ∧
    (new_game (runOps initState [Op.new_game 1, Op.new_game 2]) 3).2 = 3 :=
  C10_init_not_required.2.1 [Op.new_game 1, Op.new_game 2] 3 (by decide)

end Battleship
